import Mathlib

/-!
Shallow embedding of the record-synchronization core of the
`airtable-python-wrapper` client (`airtable/airtable.py`), together with
proofs of the specification claims about it.

Conventions of the embedding:
  * Python lists and sequences become `List`; Python dicts (record field
    mappings) become association lists `List (String × v)` or stay an
    abstract type when their content is irrelevant to the claim.
  * A Python method that can `raise` before doing I/O is embedded as an
    `Except String` value: `Except.error msg` is the raised exception and
    `Except.ok req` is the wire request the code would have issued.  In
    particular `Except.error` means no transport call was made.
  * The pagination loop of `get_iter` cannot be proved terminating (the
    transport may produce continuation tokens forever), so it takes a fuel
    argument; `none` is divergence (fuel exhausted before the loop ended).
  * Python truthiness tests (`if not offset`, `if record_id and fields`)
    are embedded by explicit `truthy*` functions on the modelled values.
-/

namespace Airtable

/-- Embeds `Airtable.MAX_RECORDS_PER_CALL` from `airtable/airtable.py`. -/
def MAX_RECORDS_PER_CALL : Nat := 10

/-- Python `range(start, stop, step)` for a non-negative step, as the list of
produced indices.  For `step > 0` it has `⌈(stop - start) / step⌉` elements
`start, start + step, …`; the client only uses it with `start = 0`,
`step = MAX_RECORDS_PER_CALL` (the slice positions of `chunker`). -/
def pyRange (start stop step : Nat) : List Nat :=
  (List.range ((stop - start + step - 1) / step)).map (fun i => start + i * step)

/-- Python slice `seq[pos:pos + len]`. -/
def pySlice (seq : List α) (pos len : Nat) : List α :=
  (seq.drop pos).take len

/-- Embeds `Airtable.chunker` (airtable.py lines 388–395):
`(seq[pos:pos + self.MAX_RECORDS_PER_CALL] for pos in
  range(0, len(seq), self.MAX_RECORDS_PER_CALL))`. -/
def chunker (seq : List α) : List (List α) :=
  (pyRange 0 seq.length MAX_RECORDS_PER_CALL).map
    (fun pos => pySlice seq pos MAX_RECORDS_PER_CALL)

theorem chunker_nil : chunker ([] : List α) = [] := by
  simp [chunker, pyRange, MAX_RECORDS_PER_CALL]

theorem pyRange_zero_succ (n : Nat) (hn : n ≠ 0) :
    pyRange 0 n 10 = 0 :: (pyRange 0 (n - 10) 10).map (fun p => p + 10) := by
  have h1 : (n - 0 + 10 - 1) / 10 = (n - 10 - 0 + 10 - 1) / 10 + 1 := by omega
  simp only [pyRange, h1, List.range_succ_eq_map, List.map_cons, List.map_map,
    List.cons.injEq]
  refine ⟨trivial, List.map_congr_left fun i _ => ?_⟩
  simp only [Function.comp_apply, Nat.zero_add, Nat.succ_mul]

theorem chunker_cons (seq : List α) (hne : seq ≠ []) :
    chunker seq = seq.take 10 :: chunker (seq.drop 10) := by
  have hn : seq.length ≠ 0 := fun h => hne (List.length_eq_zero.mp h)
  simp only [chunker, MAX_RECORDS_PER_CALL, List.length_drop]
  rw [pyRange_zero_succ seq.length hn]
  simp only [List.map_cons, List.map_map, List.cons.injEq]
  refine ⟨by simp [pySlice], List.map_congr_left fun p _ => ?_⟩
  simp only [Function.comp_apply, pySlice, List.drop_drop]
  rw [Nat.add_comm p 10]

theorem chunker_join (seq : List α) : (chunker seq).flatten = seq := by
  generalize hn : seq.length = n
  induction n using Nat.strong_induction_on generalizing seq with
  | _ n ih =>
    match seq with
    | [] => simp [chunker_nil]
    | x :: xs =>
      have hlt : ((x :: xs).drop 10).length < n := by
        subst hn; simp; omega
      rw [chunker_cons (x :: xs) (by simp), List.flatten_cons,
        ih _ hlt _ rfl, List.take_append_drop]

theorem chunker_chunk_bounds (seq : List α) :
    ∀ c ∈ chunker seq, c ≠ [] ∧ c.length ≤ 10 := by
  generalize hn : seq.length = n
  induction n using Nat.strong_induction_on generalizing seq with
  | _ n ih =>
    match seq with
    | [] => simp [chunker_nil]
    | x :: xs =>
      rw [chunker_cons (x :: xs) (by simp)]
      intro c hc
      rcases List.mem_cons.mp hc with h | h
      · subst h
        exact ⟨by simp, by simp⟩
      · have hlt : ((x :: xs).drop 10).length < n := by
          subst hn; simp; omega
        exact ih _ hlt _ rfl c h

theorem chunker_eq_nil_iff (seq : List α) : chunker seq = [] ↔ seq = [] := by
  constructor
  · intro h
    by_contra hne
    rw [chunker_cons seq hne] at h
    exact List.cons_ne_nil _ _ h
  · intro h; subst h; exact chunker_nil

theorem chunker_dropLast_length (seq : List α) :
    ∀ c ∈ (chunker seq).dropLast, c.length = 10 := by
  generalize hn : seq.length = n
  induction n using Nat.strong_induction_on generalizing seq with
  | _ n ih =>
    match seq with
    | [] => simp [chunker_nil]
    | x :: xs =>
      rw [chunker_cons (x :: xs) (by simp)]
      match htail : chunker ((x :: xs).drop 10) with
      | [] => simp
      | c' :: cs' =>
        have hd : ((x :: xs).drop 10) ≠ [] := by
          intro h
          rw [(chunker_eq_nil_iff _).mpr h] at htail
          exact List.cons_ne_nil _ _ htail.symm
        have hlen : 10 ≤ (x :: xs).length := by
          by_contra hlt
          exact hd (List.drop_eq_nil_of_le (by omega))
        intro c hc
        rw [List.dropLast_cons₂] at hc
        rcases List.mem_cons.mp hc with h | h
        · subst h
          exact List.length_take_of_le hlen
        · have hlt : ((x :: xs).drop 10).length < n := by
            subst hn; simp; omega
          have := ih _ hlt _ rfl
          rw [htail] at this
          exact this c h

/-- C1: concatenating the chunks of `chunker seq` reproduces `seq` exactly;
every chunk except possibly the last has length exactly
`MAX_RECORDS_PER_CALL = 10`; every chunk (in particular the last) has length
between 1 and 10; and the empty sequence yields zero chunks. -/
theorem chunker_spec (seq : List α) :
    (chunker seq).flatten = seq ∧
    (∀ c ∈ (chunker seq).dropLast, c.length = MAX_RECORDS_PER_CALL) ∧
    (∀ c ∈ chunker seq, 1 ≤ c.length ∧ c.length ≤ MAX_RECORDS_PER_CALL) ∧
    chunker ([] : List α) = [] := by
  refine ⟨chunker_join seq, chunker_dropLast_length seq, fun c hc => ?_, chunker_nil⟩
  obtain ⟨hne, hle⟩ := chunker_chunk_bounds seq c hc
  exact ⟨List.length_pos.mpr hne, hle⟩

/-- Embeds `Airtable._batch_request` (airtable.py lines 397–403): `responses`
starts empty and each chunk's results are appended in order with
`responses.extend(func(iterable_chunk))`; the `time.sleep(self.API_LIMIT)`
rate gate elapses time only and has no effect on the returned value, so it
is not modelled. -/
def batch_request (func : List α → List β) (iterable : List α) : List β :=
  (chunker iterable).foldl
    (fun responses iterable_chunk => responses ++ func iterable_chunk) []

/-- Embeds `Airtable.batch_insert` (airtable.py lines 405–422):
`self._batch_request(self.insert, records, typecast=typecast)`.  The
per-call insert operation (one transport round trip returning the created
records of one chunk) is abstracted as `insert_call`. -/
def batch_insert (insert_call : List α → List β) (records : List α) : List β :=
  batch_request insert_call records

theorem foldl_append_eq_flatten (f : List α → List β) (chunks : List (List α))
    (acc : List β) :
    chunks.foldl (fun responses c => responses ++ f c) acc =
      acc ++ (chunks.map f).flatten := by
  induction chunks generalizing acc with
  | nil => simp
  | cons c cs ih => simp [ih, List.append_assoc]

theorem batch_request_eq_flatten_map (f : List α → List β) (iterable : List α) :
    batch_request f iterable = ((chunker iterable).map f).flatten := by
  simp [batch_request, foldl_append_eq_flatten]

theorem chunker_of_length_23 (t : List α) (h : t.length = 23) :
    chunker t = [t.take 10, (t.drop 10).take 10, t.drop 20] := by
  have h0 : t ≠ [] := by intro hh; subst hh; simp at h
  have h10 : (t.drop 10).length = 13 := by simp [h]
  have h20 : ((t.drop 10).drop 10).length = 3 := by simp [h]
  rw [chunker_cons t h0,
    chunker_cons (t.drop 10) (fun hh => by simp [hh] at h10),
    chunker_cons ((t.drop 10).drop 10) (fun hh => by simp [hh] at h20)]
  have h30 : ((t.drop 10).drop 10).drop 10 = [] :=
    List.drop_eq_nil_of_le (by omega)
  have htk : ((t.drop 10).drop 10).take 10 = (t.drop 10).drop 10 :=
    List.take_of_length_le (by omega)
  rw [h30, chunker_nil, htk]
  simp [List.drop_drop]

/-- C2: on a 23-record input `t`, `batch_insert` invokes the per-call insert
operation exactly 3 times, on the groups `t.take 10`, `(t.drop 10).take 10`
and `t.drop 20` — sizes 10, 10 and 3 — in that order, and returns the
in-order concatenation of the per-group results; in general,
`_batch_request` applies the operation to the chunks of its input in order
and concatenates the per-chunk results in order, which (with
`chunker_spec`) preserves input order within and across groups. -/
theorem batch_insert_spec (f : List α → List β) (seq t : List α)
    (h : t.length = 23) :
    batch_request f seq = ((chunker seq).map f).flatten ∧
    (chunker t).map List.length = [10, 10, 3] ∧
    chunker t = [t.take 10, (t.drop 10).take 10, t.drop 20] ∧
    batch_insert f t = f (t.take 10) ++ (f ((t.drop 10).take 10) ++ f (t.drop 20)) := by
  have hc := chunker_of_length_23 t h
  refine ⟨batch_request_eq_flatten_map f seq, ?_, hc, ?_⟩
  · rw [hc]
    simp [h, List.length_take, List.length_drop]
  · rw [batch_insert, batch_request_eq_flatten_map, hc]
    simp

/-- Witness for C2: the concrete 23-element input `List.range 23` with the
identity per-call operation. -/
theorem batch_insert_spec_witness :
    batch_request (fun c => c) (List.range 23) =
      ((chunker (List.range 23)).map (fun c => c)).flatten ∧
    (chunker (List.range 23)).map List.length = [10, 10, 3] ∧
    chunker (List.range 23) =
      [(List.range 23).take 10, ((List.range 23).drop 10).take 10,
        (List.range 23).drop 20] ∧
    batch_insert (fun c => c) (List.range 23) =
      (List.range 23).take 10 ++
        (((List.range 23).drop 10).take 10 ++ (List.range 23).drop 20) :=
  batch_insert_spec (fun c => c) (List.range 23) (List.range 23) (by rfl)

/-- One response of the paginated listing endpoint, wire contract
`\x7b"records": [...], "offset": string?\x7d`; `offset` is what
`data.get("offset")` yields, `none` when the key is absent. -/
structure ListResponse (ρ : Type) where
  records : List ρ
  offset : Option String
  deriving DecidableEq

/-- Python truthiness of the continuation token (`if not offset: break` in
`get_iter`): `None` and the empty string are falsy, any other string is
truthy. -/
def truthyOffset : Option String → Bool
  | none => false
  | some s => !(s == "")

/-- The `while True` loop of `Airtable.get_iter` (airtable.py lines
238–246), with the transport abstracted as a map from the request's
`offset` parameter to the listing response, and a fuel bound on the number
of requests: `none` means the loop did not finish within `fuel` requests.
Each iteration issues one request, yields `data.get("records", [])` as a
page (modelled by consing it onto the produced page list), then sets
`offset = data.get("offset")` and breaks when that token is falsy.  The
`time.sleep(self.API_LIMIT)` rate gate elapses time only and is not
modelled. -/
def get_iter_go (transport : Option String → ListResponse ρ) :
    Nat → Option String → Option (List (List ρ))
  | 0, _ => none
  | fuel + 1, off =>
      let data := transport off
      if truthyOffset data.offset then
        (get_iter_go transport fuel data.offset).map
          (fun pages => data.records :: pages)
      else
        some [data.records]

/-- Embeds `Airtable.get_iter`: the loop starts with `offset = None`. -/
def get_iter (transport : Option String → ListResponse ρ) (fuel : Nat) :
    Option (List (List ρ)) :=
  get_iter_go transport fuel none

/-- Embeds `Airtable.get_all` (airtable.py lines 275–278): `all_records` starts
empty and each page of `get_iter` is appended in order with
`all_records.extend(records)`. -/
def get_all (transport : Option String → ListResponse ρ) (fuel : Nat) :
    Option (List ρ) :=
  (get_iter transport fuel).map
    (fun pages =>
      pages.foldl (fun all_records records => all_records ++ records) [])

/-- The chain of `offset` values produced by threading each response's
token into the next request, starting from the offset `off`. -/
def offsetFrom (transport : Option String → ListResponse ρ)
    (off : Option String) : Nat → Option String
  | 0 => off
  | k + 1 => (transport (offsetFrom transport off k)).offset

/-- The offsets of the successive requests `get_iter` issues: request 0
carries `offset = None`, request `k + 1` carries the token of response
`k`. -/
def offsetAt (transport : Option String → ListResponse ρ) (k : Nat) :
    Option String :=
  offsetFrom transport none k

theorem offsetFrom_shift (transport : Option String → ListResponse ρ)
    (off : Option String) (k : Nat) :
    offsetFrom transport (transport off).offset k =
      offsetFrom transport off (k + 1) := by
  induction k with
  | zero => rfl
  | succ k ih => simp only [offsetFrom, ih]

theorem get_iter_go_terminates (transport : Option String → ListResponse ρ) :
    ∀ (k : Nat) (off : Option String) (fuel : Nat),
      truthyOffset ((transport (offsetFrom transport off k)).offset) = false →
      (∀ j < k,
        truthyOffset ((transport (offsetFrom transport off j)).offset) = true) →
      k < fuel →
      get_iter_go transport fuel off =
        some ((List.range (k + 1)).map
          (fun j => (transport (offsetFrom transport off j)).records)) := by
  intro k
  induction k with
  | zero =>
    intro off fuel hk hmin hf
    match fuel, hf with
    | fuel + 1, _ =>
      rw [show offsetFrom transport off 0 = off from rfl] at hk
      simp [get_iter_go, hk, offsetFrom, List.range_succ]
  | succ k ih =>
    intro off fuel hk hmin hf
    match fuel, hf with
    | fuel + 1, hf =>
      have h0 : truthyOffset (transport off).offset = true := by
        have := hmin 0 (Nat.succ_pos k)
        rwa [show offsetFrom transport off 0 = off from rfl] at this
      have hk2 : truthyOffset
          ((transport (offsetFrom transport (transport off).offset k)).offset) = false := by
        rw [offsetFrom_shift]; exact hk
      have hmin2 : ∀ j < k, truthyOffset
          ((transport (offsetFrom transport (transport off).offset j)).offset) = true := by
        intro j hj
        rw [offsetFrom_shift]
        exact hmin (j + 1) (by omega)
      have hmap : List.map
          (fun j => (transport (offsetFrom transport off j)).records)
          (List.range (k + 1 + 1)) =
          (transport off).records ::
            List.map (fun j =>
              (transport (offsetFrom transport (transport off).offset j)).records)
              (List.range (k + 1)) := by
        rw [List.range_succ_eq_map]
        simp only [List.map_cons, List.map_map]
        refine congrArg₂ List.cons rfl ?_
        refine List.map_congr_left fun j _ => ?_
        simp only [Function.comp_apply, Nat.succ_eq_add_one, offsetFrom_shift]
      rw [show get_iter_go transport (fuel + 1) off =
            (if truthyOffset (transport off).offset then
              (get_iter_go transport fuel (transport off).offset).map
                (fun pages => (transport off).records :: pages)
            else some [(transport off).records]) from rfl]
      rw [h0, if_pos rfl, ih (transport off).offset fuel hk2 hmin2 (by omega),
        hmap]
      rfl

theorem get_iter_go_diverges (transport : Option String → ListResponse ρ) :
    ∀ (fuel : Nat) (off : Option String),
      (∀ j, truthyOffset ((transport (offsetFrom transport off j)).offset) = true) →
      get_iter_go transport fuel off = none := by
  intro fuel
  induction fuel with
  | zero => intro off _; rfl
  | succ fuel ih =>
    intro off h
    have h0 : truthyOffset (transport off).offset = true := by
      have := h 0
      rwa [show offsetFrom transport off 0 = off from rfl] at this
    rw [show get_iter_go transport (fuel + 1) off =
          (if truthyOffset (transport off).offset then
            (get_iter_go transport fuel (transport off).offset).map
              (fun pages => (transport off).records :: pages)
          else some [(transport off).records]) from rfl]
    rw [h0, if_pos rfl,
      ih (transport off).offset
        (fun j => by rw [offsetFrom_shift]; exact h (j + 1))]
    rfl

theorem foldl_extend_eq_flatten (pages : List (List ρ)) :
    pages.foldl (fun all_records records => all_records ++ records) [] =
      pages.flatten := by
  have h := foldl_append_eq_flatten (fun c => c) pages []
  simpa using h

/-- C3: for a transport whose responses carry a records list and an
optional continuation token, `get_iter` issues its first request with
`offset = None` and threads each response's token into the next request's
offset (the request chain is `offsetAt`); when `k` is the first index whose
response carries an absent or empty token and the fuel covers the `k + 1`
requests, the produced pages are exactly the records of responses `0..k`
in order and `get_all` returns their in-order concatenation; and `get_all`
terminates on some fuel iff the transport chain eventually returns a
response with an absent or empty continuation token. -/
theorem get_all_spec (transport : Option String → ListResponse ρ) :
    (∀ fuel k,
      truthyOffset ((transport (offsetAt transport k)).offset) = false →
      (∀ j < k,
        truthyOffset ((transport (offsetAt transport j)).offset) = true) →
      k < fuel →
      get_iter transport fuel =
        some ((List.range (k + 1)).map
          (fun j => (transport (offsetAt transport j)).records)) ∧
      get_all transport fuel =
        some (((List.range (k + 1)).map
          (fun j => (transport (offsetAt transport j)).records)).flatten)) ∧
    (∀ fuel,
      (∀ j, truthyOffset ((transport (offsetAt transport j)).offset) = true) →
      get_iter transport fuel = none ∧ get_all transport fuel = none) ∧
    ((∃ fuel, (get_all transport fuel).isSome) ↔
      (∃ k, truthyOffset ((transport (offsetAt transport k)).offset) = false)) := by
  have hterm : ∀ fuel k,
      truthyOffset ((transport (offsetAt transport k)).offset) = false →
      (∀ j < k,
        truthyOffset ((transport (offsetAt transport j)).offset) = true) →
      k < fuel →
      get_iter transport fuel =
        some ((List.range (k + 1)).map
          (fun j => (transport (offsetAt transport j)).records)) := by
    intro fuel k hk hmin hf
    exact get_iter_go_terminates transport k none fuel hk hmin hf
  refine ⟨fun fuel k hk hmin hf => ?_, fun fuel h => ?_, ?_⟩
  · refine ⟨hterm fuel k hk hmin hf, ?_⟩
    rw [get_all, hterm fuel k hk hmin hf]
    exact congrArg some (foldl_extend_eq_flatten _)
  · have hnone : get_iter transport fuel = none :=
      get_iter_go_diverges transport fuel none h
    exact ⟨hnone, by rw [get_all, hnone]; rfl⟩
  · constructor
    · intro ⟨fuel, hsome⟩
      by_contra hnot
      push_neg at hnot
      have hall : ∀ j,
          truthyOffset ((transport (offsetAt transport j)).offset) = true := by
        intro j
        have := hnot j
        revert this
        cases truthyOffset ((transport (offsetAt transport j)).offset) <;> simp
      have hni : get_iter transport fuel = none :=
        get_iter_go_diverges transport fuel none hall
      rw [get_all, hni] at hsome
      simp at hsome
    · intro hex
      classical
      have k := Nat.find hex
      refine ⟨Nat.find hex + 1, ?_⟩
      have hk := Nat.find_spec hex
      have hmin : ∀ j < Nat.find hex,
          truthyOffset ((transport (offsetAt transport j)).offset) = true := by
        intro j hj
        have := Nat.find_min hex hj
        revert this
        cases truthyOffset ((transport (offsetAt transport j)).offset) <;> simp
      rw [get_all,
        hterm (Nat.find hex + 1) (Nat.find hex) hk hmin (by omega)]
      rfl

/-- Concrete two-page run of the pagination model: the first response
carries token "a", the second none, and the pages concatenate in order. -/
def twoPageTransport : Option String → ListResponse Nat :=
  fun off =>
    if off = some "a" then { records := [3], offset := none }
    else { records := [1, 2], offset := some "a" }

theorem twoPageTransport_run :
    get_iter twoPageTransport 2 = some [[1, 2], [3]] ∧
    get_all twoPageTransport 2 = some [1, 2, 3] := by
  constructor <;> rfl

/-- Python truthiness of a possibly-absent string argument (`record_id`):
`None` and the empty string are falsy. -/
def pyTruthyStr : Option String → Bool
  | none => false
  | some s => !(s == "")

/-- Python truthiness of a possibly-absent dict or list argument
(`fields`, `records`): `None` and the empty collection are falsy. -/
def pyTruthyList : Option (List α) → Bool
  | none => false
  | some l => !l.isEmpty

/-- Whether the embedded call raised before issuing its transport call
(`Except.error` is the raised `RuntimeError`; `Except.ok` is the request
that goes to the transport). -/
def raised : Except String α → Bool
  | Except.error _ => true
  | Except.ok _ => false

/-- The JSON wrapper `\x7b'fields': fields\x7d` that the bulk insert form
builds for each entry of its iterable. -/
structure FieldsWrapper (φ : Type) where
  fields : φ
  deriving DecidableEq

/-- The request `Airtable.insert` issues: a single-record POST or one
bulk POST of at most `MAX_RECORDS_PER_CALL` wrapped records. -/
inductive InsertAction (φ : Type) where
  | singlePost (fields : φ) (typecast : Bool)
  | bulkPost (records : List (FieldsWrapper φ)) (typecast : Bool)
  deriving DecidableEq

/-- Embeds `Airtable.insert` (airtable.py lines 344–386).  A dict argument
(`Sum.inl`) is the single-record form and always posts.  An iterable
argument (`Sum.inr`) is wrapped entry by entry, and when more than
`MAX_RECORDS_PER_CALL` records would be sent a `RuntimeError` is raised
before any transport call; otherwise the records are posted. -/
def insert (fields_or_records : φ ⊕ List φ) (typecast : Bool) :
    Except String (InsertAction φ) :=
  match fields_or_records with
  | Sum.inl fields => Except.ok (InsertAction.singlePost fields typecast)
  | Sum.inr fields_list =>
      let records := fields_list.map (fun fields => FieldsWrapper.mk fields)
      if records.length > MAX_RECORDS_PER_CALL then
        Except.error "Only 10 records can be inserted per call"
      else
        Except.ok (InsertAction.bulkPost records typecast)

/-- One wire request of the bulk update endpoint, PATCH with body
`\x7b"records": records, "typecast": typecast\x7d`. -/
structure PatchRecordsRequest (υ : Type) where
  records : List υ
  typecast : Bool
  deriving DecidableEq

/-- Embeds `Airtable.update_records` (airtable.py lines 424–451): materializes
the iterable, raises `RuntimeError` when it holds more than
`MAX_RECORDS_PER_CALL` records — before any transport call — and
otherwise patches the records with the given `typecast` flag. -/
def update_records (records : List υ) (typecast : Bool) :
    Except String (PatchRecordsRequest υ) :=
  if records.length > MAX_RECORDS_PER_CALL then
    Except.error "Only 10 records can be updated per call"
  else
    Except.ok { records := records, typecast := typecast }

/-- The request `Airtable.update` issues: a single-record PATCH to the
record's URL, or the bulk PATCH built by `update_records`. -/
inductive UpdateAction (π υ : Type) where
  | singlePatch (record_id : String) (fields : List π) (typecast : Bool)
  | bulkPatch (request : PatchRecordsRequest υ)
  deriving DecidableEq

/-- The message of the `RuntimeError` `Airtable.update` raises when
neither calling convention is satisfied. -/
def updateUsageError : String :=
  "update must have record id and fields set OR records set"

/-- Embeds `Airtable.update` (airtable.py lines 453–496).  When
`record_id and fields` is truthy (both present and non-empty) the
single-record PATCH carrying the caller's `typecast` is issued; otherwise,
when `records` is truthy it is forwarded as `self.update_records(records)`
— with no `typecast` argument, so the bulk path uses the default
`typecast=False`; otherwise a `RuntimeError` is raised. -/
def update (record_id : Option String) (fields : Option (List π))
    (typecast : Bool) (records : Option (List υ)) :
    Except String (UpdateAction π υ) :=
  if pyTruthyStr record_id && pyTruthyList fields then
    Except.ok (UpdateAction.singlePatch (record_id.getD "")
      (fields.getD []) typecast)
  else if pyTruthyList records then
    (update_records (records.getD []) false).map UpdateAction.bulkPatch
  else
    Except.error updateUsageError

/-- The request `Airtable.delete` issues: DELETE of one record URL, or one
bulk DELETE whose URL carries the ids as repeated query parameters. -/
inductive DeleteAction where
  | singleDelete (record_id : String)
  | bulkDelete (record_ids : List String)
  deriving DecidableEq

/-- Embeds `Airtable.delete` (airtable.py lines 597–633): a string argument
deletes one record; an iterable is materialized and raises `RuntimeError`
when it holds more than `MAX_RECORDS_PER_CALL` ids — before any transport
call — and otherwise issues the bulk delete. -/
def delete (record_id_or_record_ids : String ⊕ List String) :
    Except String DeleteAction :=
  match record_id_or_record_ids with
  | Sum.inl record_id => Except.ok (DeleteAction.singleDelete record_id)
  | Sum.inr ids =>
      let record_ids := ids
      if record_ids.length > MAX_RECORDS_PER_CALL then
        Except.error "Only 10 records can be deleted per call"
      else
        Except.ok (DeleteAction.bulkDelete record_ids)

/-- C5: each single-call bulk entry point — `insert` on a sequence of
fields mappings, `update_records`, and `delete` on a sequence of ids —
raises (so no transport call is issued and there are no partial side
effects) exactly when the input exceeds `MAX_RECORDS_PER_CALL = 10` items;
for at most 10 items no error is raised. -/
theorem single_call_cap_spec (fs : List φ) (rs : List υ) (ids : List String)
    (t t2 : Bool) :
    (raised (insert (Sum.inr fs) t) = true ↔
      MAX_RECORDS_PER_CALL < fs.length) ∧
    (raised (update_records rs t2) = true ↔
      MAX_RECORDS_PER_CALL < rs.length) ∧
    (raised (delete (Sum.inr ids)) = true ↔
      MAX_RECORDS_PER_CALL < ids.length) := by
  refine ⟨?_, ?_, ?_⟩
  · simp only [insert, List.length_map]
    split_ifs with h
    · exact iff_of_true rfl h
    · exact iff_of_false (by simp [raised]) (by omega)
  · simp only [update_records]
    split_ifs with h
    · exact iff_of_true rfl h
    · exact iff_of_false (by simp [raised]) (by omega)
  · simp only [delete]
    split_ifs with h
    · exact iff_of_true rfl h
    · exact iff_of_false (by simp [raised]) (by omega)

/-- C8 counterexample: supplying both calling conventions at once —
`record_id` together with `fields`, and also `records` — does not raise a
usage error; the single-record convention takes precedence and the
single-record PATCH is issued. -/
theorem update_both_conventions_no_error :
    update (some "rec0") (some [("Name", "A")]) false (some [(1 : Nat)]) =
      Except.ok (UpdateAction.singlePatch "rec0" [("Name", "A")] false) := by
  rfl

/-- C8 (amended): `update` raises the usage error, before any transport
call, exactly when neither calling convention is satisfied — in
particular `update(record_id=None, fields=None, records=None)` raises —
and when the single-record convention (truthy `record_id` and `fields`)
holds it is used, even when `records` is also supplied: the conventions
are checked in order, so supplying both at once is not an error. -/
theorem update_conventions_spec (record_id : Option String)
    (fields : Option (List π)) (typecast : Bool)
    (records : Option (List υ)) :
    ((pyTruthyStr record_id && pyTruthyList fields) = false →
      pyTruthyList records = false →
      update record_id fields typecast records =
        Except.error updateUsageError) ∧
    update (none : Option String) (none : Option (List π)) typecast
      (none : Option (List υ)) = Except.error updateUsageError ∧
    ((pyTruthyStr record_id && pyTruthyList fields) = true →
      update record_id fields typecast records =
        Except.ok (UpdateAction.singlePatch (record_id.getD "")
          (fields.getD []) typecast)) ∧
    ((pyTruthyStr record_id && pyTruthyList fields) = false →
      pyTruthyList records = true →
      update record_id fields typecast records =
        (update_records (records.getD []) false).map UpdateAction.bulkPatch ∧
      update record_id fields typecast records ≠
        Except.error updateUsageError) := by
  refine ⟨fun h1 h2 => ?_, ?_, fun h => ?_, fun h1 h2 => ?_⟩
  · simp [update, h1, h2]
  · simp [update, pyTruthyStr, pyTruthyList]
  · simp [update, h]
  · have heq : update record_id fields typecast records =
        (update_records (records.getD []) false).map UpdateAction.bulkPatch := by
      simp [update, h1, h2]
    refine ⟨heq, ?_⟩
    rw [heq, update_records]
    split_ifs with hlen
    · simp only [Except.map, updateUsageError, ne_eq, Except.error.injEq]
      decide
    · simp [Except.map]

/-- C9: the bulk form of `update` forwards `records` to `update_records`
without forwarding the caller's `typecast`, so the bulk wire request
always carries `typecast = false` regardless of the caller's flag, while
the single-record form does carry the caller's flag. -/
theorem update_bulk_drops_typecast (t t2 : Bool) (rs : List υ)
    (record_id : String) (fields : List π) (h : rs ≠ []) :
    update (π := π) none none t (some rs) =
      update none none t2 (some rs) ∧
    (rs.length ≤ MAX_RECORDS_PER_CALL →
      update (π := π) none none t (some rs) =
        Except.ok (UpdateAction.bulkPatch
          { records := rs, typecast := false })) ∧
    (record_id ≠ "" → fields ≠ [] →
      update (some record_id) (some fields) t (none : Option (List υ)) =
        Except.ok (UpdateAction.singlePatch record_id fields t)) := by
  have hsr : pyTruthyList (some rs) = true := by
    match rs, h with
    | r :: rs2, _ => rfl
  refine ⟨?_, fun hle => ?_, fun h1 h2 => ?_⟩
  · simp [update, pyTruthyStr]
  · have hno : ¬(MAX_RECORDS_PER_CALL < rs.length) := by omega
    simp [update, pyTruthyStr, hsr, update_records, hno, Except.map]
  · have hb1 : pyTruthyStr (some record_id) = true := by
      simp [pyTruthyStr, h1]
    have hb2 : pyTruthyList (some fields) = true := by
      match fields, h2 with
      | f :: fs2, _ => rfl
    simp [update, hb1, hb2]

/-- Witness for C9: one bulk record with `typecast=True` still yields a
wire request with `typecast = false`; a single-record call keeps its
flag. -/
theorem update_bulk_drops_typecast_witness :
    update (π := String × String) none none true (some [(7 : Nat)]) =
      update none none false (some [(7 : Nat)]) ∧
    ([(7 : Nat)].length ≤ MAX_RECORDS_PER_CALL →
      update (π := String × String) none none true (some [(7 : Nat)]) =
        Except.ok (UpdateAction.bulkPatch
          { records := [(7 : Nat)], typecast := false })) ∧
    ("rec0" ≠ "" → [("F", "1")] ≠ [] →
      update (some "rec0") (some [("F", "1")]) true (none : Option (List Nat)) =
        Except.ok (UpdateAction.singlePatch "rec0" [("F", "1")] true)) :=
  update_bulk_drops_typecast true false [(7 : Nat)] "rec0" [("F", "1")]
    (by decide)

/-- C10: `update(record_id=r, fields=\x7b\x7d)` with an empty fields
mapping and no `records` argument does not issue the single-record PATCH:
the empty mapping is falsy, so the call falls through both conventions and
raises the usage error, leaving all remote state unchanged. -/
theorem update_empty_fields_spec (r : String) (typecast : Bool) :
    update (some r) (some ([] : List π)) typecast
      (none : Option (List υ)) = Except.error updateUsageError := by
  simp [update, pyTruthyStr, pyTruthyList]

/-- The query options `match`/`get_all` thread to the transport; only the
fields the claims speak about are modelled: `formula`, and `view` standing
for the rest of the caller-supplied options. -/
structure QueryOptions where
  view : Option String
  formula : Option String
  deriving DecidableEq

/-- A record as the listing returns it: a JSON object modelled as an
association list of string fields; `[]` is the empty mapping and is the
empty-record sentinel `match` returns. -/
abbrev PyRecord := List (String × String)

/-- Modelled from the spec: `AirtableParams.FormulaParam.from_name_and_value`
lives in `airtable/params.py`, which is not among the sources.  Per the
spec it builds a server-side filter formula equivalent to "field equals
value", the value quoted by the formula's quoting rules. -/
def from_name_and_value (field_name field_value : String) : String :=
  "\x7b" ++ field_name ++ "\x7d=\x27" ++ field_value ++ "\x27"

/-- Embeds `Airtable.match` (airtable.py lines 280–310): installs the
field-equals-value formula into `options["formula"]` — overriding any
caller-supplied formula — then returns the first record of `get_all`, or
the empty mapping when `get_all` yields none (the `for record ...: return
record / else: return` empty-dict shape).  The transport is abstracted as
a map from the processed options and the request offset to the listing
response; the outer `none` is divergence of the underlying pagination. -/
def matchRecord
    (transport : QueryOptions → Option String → ListResponse PyRecord)
    (fuel : Nat) (field_name field_value : String)
    (options : QueryOptions) : Option PyRecord :=
  let formula := from_name_and_value field_name field_value
  let options2 := { options with formula := some formula }
  (get_all (transport options2) fuel).map (fun records => records.headD [])

/-- C6: `match` issues its listing with the field-equals-value formula
installed in the options — so its result is independent of any
caller-supplied formula — and returns the first record of the resulting
`get_all` sequence; when no record matches it returns the empty-record
sentinel `[]` (an empty mapping), not an error. -/
theorem match_spec
    (transport : QueryOptions → Option String → ListResponse PyRecord)
    (fuel : Nat) (field_name field_value : String) (options : QueryOptions)
    (records : List PyRecord)
    (h : get_all (transport { options with
        formula := some (from_name_and_value field_name field_value) }) fuel =
      some records) :
    matchRecord transport fuel field_name field_value options =
      some (records.headD []) ∧
    (records = [] →
      matchRecord transport fuel field_name field_value options = some []) ∧
    (∀ f0, matchRecord transport fuel field_name field_value
        { options with formula := f0 } =
      matchRecord transport fuel field_name field_value options) := by
  refine ⟨?_, fun he => ?_, fun f0 => rfl⟩
  · simp [matchRecord, h]
  · subst he
    simp [matchRecord, h]

/-- A transport that holds no matching record: every listing response is a
single final empty page. -/
def emptyTransport : QueryOptions → Option String → ListResponse PyRecord :=
  fun _ _ => { records := [], offset := none }

/-- Witness for C6: `match("Name", "John")` against a service containing
no matching record returns the empty sentinel. -/
theorem match_spec_witness :
    matchRecord emptyTransport 1 "Name" "John"
        { view := none, formula := none } =
      some (([] : List PyRecord).headD []) ∧
    (([] : List PyRecord) = [] →
      matchRecord emptyTransport 1 "Name" "John"
        { view := none, formula := none } = some []) ∧
    (∀ f0, matchRecord emptyTransport 1 "Name" "John"
        { view := none, formula := f0 } =
      matchRecord emptyTransport 1 "Name" "John"
        { view := none, formula := none }) :=
  match_spec emptyTransport 1 "Name" "John"
    { view := none, formula := none } [] (by rfl)

/-- Outcome of `update_by_field`: the empty no-op result (no write call
issued), the `KeyError` raised by `record["id"]` on a record without an
id, or the forwarded `update` call on the matched id. -/
inductive UByFieldOutcome (π : Type) where
  | emptyResult
  | keyError
  | updated (call : Except String (UpdateAction π Unit))

/-- Embeds `Airtable.update_by_field` (airtable.py lines 498–525): `match`, then
`\x7b\x7d if not record else self.update(record["id"], fields,
typecast)`. -/
def update_by_field
    (transport : QueryOptions → Option String → ListResponse PyRecord)
    (fuel : Nat) (field_name field_value : String) (fields : List π)
    (typecast : Bool) (options : QueryOptions) :
    Option (UByFieldOutcome π) :=
  (matchRecord transport fuel field_name field_value options).map
    (fun record =>
      if record.isEmpty then UByFieldOutcome.emptyResult
      else
        match record.lookup "id" with
        | none => UByFieldOutcome.keyError
        | some record_id =>
            UByFieldOutcome.updated
              (update (some record_id) (some fields) typecast
                (none : Option (List Unit))))

/-- The single-record PUT of `Airtable.replace` (airtable.py lines
546–567): a full overwrite of the record's fields. -/
structure ReplacePut (π : Type) where
  record_id : String
  fields : List π
  typecast : Bool
  deriving DecidableEq

/-- Embeds `Airtable.replace`: always issues the single-record PUT. -/
def replace (record_id : String) (fields : List π) (typecast : Bool) :
    ReplacePut π :=
  { record_id := record_id, fields := fields, typecast := typecast }

/-- Outcome of `replace_by_field`, like `UByFieldOutcome`. -/
inductive RByFieldOutcome (π : Type) where
  | emptyResult
  | keyError
  | replaced (call : ReplacePut π)
  deriving DecidableEq

/-- Embeds `Airtable.replace_by_field` (airtable.py lines 569–595): `match`, then
`\x7b\x7d if not record else self.replace(record["id"], fields,
typecast)`. -/
def replace_by_field
    (transport : QueryOptions → Option String → ListResponse PyRecord)
    (fuel : Nat) (field_name field_value : String) (fields : List π)
    (typecast : Bool) (options : QueryOptions) :
    Option (RByFieldOutcome π) :=
  (matchRecord transport fuel field_name field_value options).map
    (fun record =>
      if record.isEmpty then RByFieldOutcome.emptyResult
      else
        match record.lookup "id" with
        | none => RByFieldOutcome.keyError
        | some record_id =>
            RByFieldOutcome.replaced (replace record_id fields typecast))

/-- Outcome of `delete_by_field`: there is no empty-result guard — the
matched record's id is read immediately, so the no-match empty sentinel
raises `KeyError`; otherwise the single-record DELETE is issued. -/
inductive DByFieldOutcome where
  | keyError
  | deleted (record_id : String)
  deriving DecidableEq

/-- Embeds `Airtable.delete_by_field` (airtable.py lines 635–657): `match`, then
`record_url(record["id"])` and DELETE, with no emptiness check. -/
def delete_by_field
    (transport : QueryOptions → Option String → ListResponse PyRecord)
    (fuel : Nat) (field_name field_value : String)
    (options : QueryOptions) : Option DByFieldOutcome :=
  (matchRecord transport fuel field_name field_value options).map
    (fun record =>
      match record.lookup "id" with
      | none => DByFieldOutcome.keyError
      | some record_id => DByFieldOutcome.deleted record_id)

/-- C7: under a no-match condition (the listing with the installed formula
returns no records), `update_by_field` and `replace_by_field` return the
empty no-op result and issue no write call, while `delete_by_field`
raises (`KeyError` reading the empty sentinel's id) instead of returning
an empty result — for every field name, field value and options. -/
theorem by_field_asymmetry_spec
    (transport : QueryOptions → Option String → ListResponse PyRecord)
    (fuel : Nat) (field_name field_value : String) (fields : List π)
    (typecast : Bool) (options : QueryOptions)
    (h : get_all (transport { options with
        formula := some (from_name_and_value field_name field_value) }) fuel =
      some []) :
    update_by_field transport fuel field_name field_value fields typecast
        options = some UByFieldOutcome.emptyResult ∧
    replace_by_field transport fuel field_name field_value fields typecast
        options = some RByFieldOutcome.emptyResult ∧
    delete_by_field transport fuel field_name field_value options =
      some DByFieldOutcome.keyError := by
  have hm : matchRecord transport fuel field_name field_value options =
      some [] := by
    simp [matchRecord, h]
  refine ⟨?_, ?_, ?_⟩ <;>
    simp [update_by_field, replace_by_field, delete_by_field, hm,
      List.lookup]

/-- Witness for C7 at the concrete no-match transport. -/
theorem by_field_asymmetry_spec_witness :
    update_by_field (π := Unit) emptyTransport 1 "Name" "John" [] false
        { view := none, formula := none } =
      some UByFieldOutcome.emptyResult ∧
    replace_by_field emptyTransport 1 "Name" "John" ([] : List Unit) false
        { view := none, formula := none } =
      some RByFieldOutcome.emptyResult ∧
    delete_by_field emptyTransport 1 "Name" "John"
        { view := none, formula := none } =
      some DByFieldOutcome.keyError :=
  by_field_asymmetry_spec emptyTransport 1 "Name" "John" ([] : List Unit)
    false { view := none, formula := none } (by rfl)

/-- A record held by the simulated service: the opaque id the service
assigned (numeric in the model) and the record's fields. -/
structure SvcRecord (φ : Type) where
  id : Nat
  fields : φ
  deriving DecidableEq

/-- The state of the simulated service: the table's records and the next
fresh id it will assign. -/
structure SvcState (φ : Type) where
  table : List (SvcRecord φ)
  nextId : Nat
  deriving DecidableEq

/-- One request event, recorded to prove the ordering of `mirror`'s
effects: the listing request of `get_all`, one chunk's bulk delete, one
chunk's bulk insert. -/
inductive Event where
  | listReq
  | deleteReq (record_ids : List Nat)
  | insertReq (count : Nat)
  deriving DecidableEq

/-- A deletion confirmation, wire shape
`\x7b"id": ..., "deleted": true\x7d`. -/
structure DeleteResult where
  id : Nat
  deleted : Bool
  deriving DecidableEq

/-- The simulated service's listing as `mirror`'s `self.get_all(**options)`
observes it: the records currently visible under the options' view, in
table order.  Pagination is collapsed to its concatenated result here; the
page threading itself is verified on `get_iter`/`get_all` above. -/
def svc_get_all (view : SvcRecord φ → Bool) (s : SvcState φ) :
    List (SvcRecord φ) × List Event :=
  (s.table.filter view, [Event.listReq])

/-- One per-chunk bulk delete against the simulated service: confirms each
id, removes those records, leaves `nextId` unchanged. -/
def svc_delete_chunk (record_ids : List Nat) (s : SvcState φ) :
    List DeleteResult × SvcState φ × List Event :=
  (record_ids.map (fun i => ({ id := i, deleted := true } : DeleteResult)),
   { s with table := s.table.filter (fun r => !(record_ids.contains r.id)) },
   [Event.deleteReq record_ids])

/-- The records the simulated service creates for one insert chunk:
consecutive fresh ids starting at `startId`. -/
def mkInserted (startId : Nat) : List φ → List (SvcRecord φ)
  | [] => []
  | f :: fs => { id := startId, fields := f } :: mkInserted (startId + 1) fs

/-- One per-chunk bulk insert against the simulated service. -/
def svc_insert_chunk (fields_list : List φ) (s : SvcState φ) :
    List (SvcRecord φ) × SvcState φ × List Event :=
  (mkInserted s.nextId fields_list,
   { table := s.table ++ mkInserted s.nextId fields_list,
     nextId := s.nextId + fields_list.length },
   [Event.insertReq fields_list.length])

/-- Embeds `Airtable._batch_request` as `mirror` drives it, threading the
simulated service state and the request trace through the per-chunk
operation; the pure result path is `batch_request` above, this variant
makes the side effects visible. -/
def batch_request_st
    (func : List α → SvcState φ → List β × SvcState φ × List Event)
    (iterable : List α) (s : SvcState φ) :
    List β × SvcState φ × List Event :=
  (chunker iterable).foldl
    (fun acc chunk =>
      (acc.1 ++ (func chunk acc.2.1).1,
       (func chunk acc.2.1).2.1,
       acc.2.2 ++ (func chunk acc.2.1).2.2))
    ([], s, [])

/-- Structural-recursion form of `batch_request_st` over an explicit chunk
list, easier to induct on. -/
def runChunks
    (func : List α → SvcState φ → List β × SvcState φ × List Event) :
    List (List α) → SvcState φ → List β × SvcState φ × List Event
  | [], s => ([], s, [])
  | c :: cs, s =>
      ((func c s).1 ++ (runChunks func cs (func c s).2.1).1,
       (runChunks func cs (func c s).2.1).2.1,
       (func c s).2.2 ++ (runChunks func cs (func c s).2.1).2.2)

theorem foldl_st_eq_runChunks
    (func : List α → SvcState φ → List β × SvcState φ × List Event)
    (chunks : List (List α)) (accL : List β) (s : SvcState φ)
    (accE : List Event) :
    chunks.foldl
      (fun acc chunk =>
        (acc.1 ++ (func chunk acc.2.1).1,
         (func chunk acc.2.1).2.1,
         acc.2.2 ++ (func chunk acc.2.1).2.2))
      (accL, s, accE) =
    (accL ++ (runChunks func chunks s).1,
     (runChunks func chunks s).2.1,
     accE ++ (runChunks func chunks s).2.2) := by
  induction chunks generalizing accL s accE with
  | nil => simp [runChunks]
  | cons c cs ih => simp [runChunks, ih, List.append_assoc]

theorem batch_request_st_eq_runChunks
    (func : List α → SvcState φ → List β × SvcState φ × List Event)
    (iterable : List α) (s : SvcState φ) :
    batch_request_st func iterable s = runChunks func (chunker iterable) s := by
  rw [batch_request_st, foldl_st_eq_runChunks]
  simp

theorem runChunks_delete (chunks : List (List Nat)) (s : SvcState φ) :
    (runChunks svc_delete_chunk chunks s).1 =
      chunks.flatten.map
        (fun i => ({ id := i, deleted := true } : DeleteResult)) ∧
    (runChunks svc_delete_chunk chunks s).2.1.nextId = s.nextId ∧
    (runChunks svc_delete_chunk chunks s).2.2 = chunks.map Event.deleteReq := by
  induction chunks generalizing s with
  | nil => simp [runChunks]
  | cons c cs ih =>
    obtain ⟨ih1, ih2, ih3⟩ :=
      ih { s with table := s.table.filter (fun r => !(c.contains r.id)) }
    refine ⟨?_, ?_, ?_⟩
    · simp only [runChunks, svc_delete_chunk]
      rw [ih1, List.flatten_cons, List.map_append]
    · simp only [runChunks, svc_delete_chunk]
      exact ih2
    · simp only [runChunks, svc_delete_chunk]
      rw [ih3, List.map_cons, List.singleton_append]

theorem mkInserted_append (startId : Nat) (l1 l2 : List φ) :
    mkInserted startId (l1 ++ l2) =
      mkInserted startId l1 ++ mkInserted (startId + l1.length) l2 := by
  induction l1 generalizing startId with
  | nil => simp [mkInserted]
  | cons f fs ih =>
    show ({ id := startId, fields := f } : SvcRecord φ) ::
        mkInserted (startId + 1) (fs ++ l2) =
      ({ id := startId, fields := f } : SvcRecord φ) ::
        (mkInserted (startId + 1) fs ++
          mkInserted (startId + (f :: fs).length) l2)
    rw [ih, show (f :: fs).length = fs.length + 1 from rfl,
      show startId + (fs.length + 1) = startId + 1 + fs.length from by omega]

theorem mkInserted_length (startId : Nat) (l : List φ) :
    (mkInserted startId l).length = l.length := by
  induction l generalizing startId with
  | nil => rfl
  | cons f fs ih => simp [mkInserted, ih]

theorem runChunks_insert (chunks : List (List φ)) (s : SvcState φ) :
    (runChunks svc_insert_chunk chunks s).1 =
      mkInserted s.nextId chunks.flatten ∧
    (runChunks svc_insert_chunk chunks s).2.2 =
      chunks.map (fun c => Event.insertReq c.length) := by
  induction chunks generalizing s with
  | nil => simp [runChunks, mkInserted]
  | cons c cs ih =>
    obtain ⟨ih1, ih2⟩ :=
      ih { table := s.table ++ mkInserted s.nextId c,
           nextId := s.nextId + c.length }
    constructor
    · simp [runChunks, svc_insert_chunk, ih1, mkInserted_append]
    · simp [runChunks, svc_insert_chunk, ih2]

/-- Embeds `Airtable.mirror` (airtable.py lines 677–707):
`all_record_ids = [r["id"] for r in self.get_all(**options)]`, then
`deleted_records = self.batch_delete(all_record_ids)`, then
`new_records = self.batch_insert(records)`, and the return value is the
pair `(new_records, deleted_records)`.  The third component is the request
trace, in issue order. -/
def mirror (records : List φ) (view : SvcRecord φ → Bool) (s : SvcState φ) :
    (List (SvcRecord φ) × List DeleteResult) × SvcState φ × List Event :=
  let fetched := svc_get_all view s
  let all_record_ids := fetched.1.map SvcRecord.id
  let deleted := batch_request_st svc_delete_chunk all_record_ids s
  let inserted := batch_request_st svc_insert_chunk records deleted.2.1
  ((inserted.1, deleted.1), inserted.2.1,
    fetched.2 ++ deleted.2.2 ++ inserted.2.2)

/-- C4: `mirror` first issues the listing and reads exactly the ids of the
records currently visible under the options' view, then batch-deletes all
of them, then batch-inserts the new records — in the request trace the
listing comes first and every delete chunk precedes every insert chunk —
and returns the pair `(new_records, deleted_records)` in that component
order; when two records are visible and one record is inserted, the
result is one created record paired with two deletion confirmations. -/
theorem mirror_spec (records : List φ) (view : SvcRecord φ → Bool)
    (s : SvcState φ) :
    (mirror records view s).1.2 =
      ((s.table.filter view).map SvcRecord.id).map
        (fun i => ({ id := i, deleted := true } : DeleteResult)) ∧
    (mirror records view s).1.1 = mkInserted s.nextId records ∧
    (mirror records view s).2.2 =
      Event.listReq ::
        ((chunker ((s.table.filter view).map SvcRecord.id)).map
            Event.deleteReq ++
          (chunker records).map (fun c => Event.insertReq c.length)) ∧
    ((s.table.filter view).length = 2 → records.length = 1 →
      (mirror records view s).1.1.length = 1 ∧
      (mirror records view s).1.2.length = 2) := by
  obtain ⟨hd1, hd2, hd3⟩ :=
    runChunks_delete (chunker ((s.table.filter view).map SvcRecord.id)) s
  obtain ⟨hi1, hi2⟩ :=
    runChunks_insert (chunker records)
      ((runChunks svc_delete_chunk
        (chunker ((s.table.filter view).map SvcRecord.id)) s).2.1)
  have hidsflat :
      (chunker ((s.table.filter view).map SvcRecord.id)).flatten =
        (s.table.filter view).map SvcRecord.id := chunker_join _
  have hrecflat : (chunker records).flatten = records := chunker_join _
  have hA : (mirror records view s).1.2 =
      ((s.table.filter view).map SvcRecord.id).map
        (fun i => ({ id := i, deleted := true } : DeleteResult)) := by
    simp only [mirror, svc_get_all, batch_request_st_eq_runChunks]
    rw [hd1, hidsflat]
  have hB : (mirror records view s).1.1 = mkInserted s.nextId records := by
    simp only [mirror, svc_get_all, batch_request_st_eq_runChunks]
    rw [hi1, hrecflat, hd2]
  refine ⟨hA, hB, ?_, fun h2 h1 => ?_⟩
  · simp only [mirror, svc_get_all, batch_request_st_eq_runChunks]
    rw [hd3, hi2]
    simp
  · constructor
    · rw [hB, mkInserted_length, h1]
    · rw [hA]
      simp [h2]

end Airtable
